import Mathlib

/-!
Verification of the workspace-server supervisor and persistence layer of
`apps/desktop/src-tauri/src/lib.rs`.

The Rust code is shallowly embedded: pure helpers become Lean functions,
the process registry and the file stores become explicit state passed in
and out, and the environment (process liveness, handshake outcome, I/O
success) is passed as explicit parameters.  `serde_json` values are
modelled by the inductive `Json` below; numbers are modelled as integers
(the documents manipulated by this code contain no fractional numbers),
and the free-text detail that `serde` appends to its error messages is
abstracted away (error strings keep the fixed formatting prefix of the code).
-/

/-- Model of `serde_json::Value`.  Object fields keep their insertion
order, as `serde_json` preserves order for values built from struct
serialization.  Numbers are restricted to integers: the state documents,
handshake messages and transcript envelopes of this program carry only
integral numbers, so fractional literals are outside the model. -/
inductive Json where
  | null : Json
  | bool : Bool → Json
  | num : Int → Json
  | str : String → Json
  | arr : List Json → Json
  | obj : List (String × Json) → Json

/-- Hexadecimal digit used by the string escaper. -/
def hexDigit (n : Nat) : Char :=
  if n < 10 then Char.ofNat (n + '0'.toNat) else Char.ofNat (n - 10 + 'a'.toNat)

/-- Escape of one character inside a JSON string, following
`serde_json`: quote and backslash get a backslash escape, the named
control characters get their short escapes, all other control characters
get a `\u00XX` escape, everything else is copied verbatim. -/
def escapeChar (c : Char) : String :=
  if c = '\"' then "\\\""
  else if c = '\\' then "\\\\"
  else if c = '\x08' then "\\b"
  else if c = '\t' then "\\t"
  else if c = '\n' then "\\n"
  else if c = '\x0c' then "\\f"
  else if c = '\r' then "\\r"
  else if c.toNat < 0x20 then
    "\\u00" ++ String.mk [hexDigit (c.toNat / 16), hexDigit (c.toNat % 16)]
  else String.mk [c]

/-- Rendering of a JSON string literal including the surrounding quotes. -/
def renderJsonString (s : String) : String :=
  "\"" ++ String.join (s.data.map escapeChar) ++ "\""

mutual
/-- Compact rendering, as `serde_json::to_string` produces it: no
whitespace, fields in order. -/
def Json.render : Json → String
  | .null => "null"
  | .bool true => "true"
  | .bool false => "false"
  | .num n => toString n
  | .str s => renderJsonString s
  | .arr xs => "[" ++ Json.renderArr xs ++ "]"
  | .obj kvs => "\x7b" ++ Json.renderMembers kvs ++ "\x7d"

def Json.renderArr : List Json → String
  | [] => ""
  | [x] => Json.render x
  | x :: y :: xs => Json.render x ++ "," ++ Json.renderArr (y :: xs)

def Json.renderMembers : List (String × Json) → String
  | [] => ""
  | [(k, v)] => renderJsonString k ++ ":" ++ Json.render v
  | (k, v) :: m :: xs =>
    renderJsonString k ++ ":" ++ Json.render v ++ "," ++ Json.renderMembers (m :: xs)
end

/-- JSON insignificant whitespace. -/
def jsonWs (c : Char) : Bool := c = ' ' || c = '\t' || c = '\n' || c = '\r'

def skipWs (cs : List Char) : List Char := cs.dropWhile jsonWs

def isJsonDigit (c : Char) : Bool := '0' ≤ c && c ≤ '9'

def digitVal (c : Char) : Nat := c.toNat - '0'.toNat

/-- Resolution of a backslash escape inside a JSON string.  The `\uXXXX`
form is not modelled (none of the strings this program produces or the
claims exercise use it). -/
def unescape (c : Char) : Option Char :=
  if c = '\"' then some '\"'
  else if c = '\\' then some '\\'
  else if c = '/' then some '/'
  else if c = 'b' then some '\x08'
  else if c = 't' then some '\t'
  else if c = 'n' then some '\n'
  else if c = 'f' then some '\x0c'
  else if c = 'r' then some '\r'
  else none

/-- Parsing of a JSON string body after the opening quote; rejects raw
control characters and unknown escapes, as `serde_json` does. -/
def parseStringBody : List Char → List Char → Option (String × List Char)
  | [], _ => none
  | '\"' :: rest, acc => some (String.mk acc.reverse, rest)
  | '\\' :: c :: rest, acc =>
    match unescape c with
    | some u => parseStringBody rest (u :: acc)
    | none => none
  | ['\\'], _ => none
  | c :: rest, acc =>
    if c.toNat < 0x20 then none else parseStringBody rest (c :: acc)

def digitsToNat (ds : List Char) : Nat := ds.foldl (fun n c => 10 * n + digitVal c) 0

/-- Parsing of a non-negative integer literal: at least one digit, no
leading zero (except the literal `0` itself). -/
def parseNumNonNeg (cs : List Char) : Option (Json × List Char) :=
  let (ds, rest) := cs.span isJsonDigit
  if ds.isEmpty then none
  else if ds.head? = some '0' && ds.length ≠ 1 then none
  else some (.num (Int.ofNat (digitsToNat ds)), rest)

def parseNum (cs : List Char) : Option (Json × List Char) :=
  match cs with
  | '-' :: rest =>
    (parseNumNonNeg rest).map (fun p => match p with | (.num n, r) => (.num (-n), r) | q => q)
  | _ => parseNumNonNeg cs

mutual
/-- Fueled recursive-descent JSON value reader.  The fuel only bounds
nesting; `Json.parse?` supplies enough for any input. -/
def parseVal : Nat → List Char → Option (Json × List Char)
  | 0, _ => none
  | fuel + 1, cs =>
    match skipWs cs with
    | 'n' :: 'u' :: 'l' :: 'l' :: rest => some (.null, rest)
    | 't' :: 'r' :: 'u' :: 'e' :: rest => some (.bool true, rest)
    | 'f' :: 'a' :: 'l' :: 's' :: 'e' :: rest => some (.bool false, rest)
    | '\"' :: rest => (parseStringBody rest []).map (fun p => (.str p.1, p.2))
    | '[' :: rest =>
      match skipWs rest with
      | ']' :: r2 => some (.arr [], r2)
      | r2 => (parseElems fuel r2).map (fun p => (.arr p.1, p.2))
    | '\x7b' :: rest =>
      match skipWs rest with
      | '\x7d' :: r2 => some (.obj [], r2)
      | r2 => (parseMembers fuel r2).map (fun p => (.obj p.1, p.2))
    | cs2 => parseNum cs2

/-- Reader for the elements of a non-empty array, positioned at the
first element. -/
def parseElems : Nat → List Char → Option (List Json × List Char)
  | 0, _ => none
  | fuel + 1, cs => do
    let (x, r1) ← parseVal fuel cs
    match skipWs r1 with
    | ',' :: r2 => (parseElems fuel r2).map (fun p => (x :: p.1, p.2))
    | ']' :: r2 => some ([x], r2)
    | _ => none

/-- Reader for the members of a non-empty object, positioned at the
first key. -/
def parseMembers : Nat → List Char → Option (List (String × Json) × List Char)
  | 0, _ => none
  | fuel + 1, cs =>
    match skipWs cs with
    | '\"' :: r1 => do
      let (k, r2) ← parseStringBody r1 []
      match skipWs r2 with
      | ':' :: r3 => do
        let (v, r4) ← parseVal fuel r3
        match skipWs r4 with
        | ',' :: r5 => (parseMembers fuel r5).map (fun p => ((k, v) :: p.1, p.2))
        | '\x7d' :: r5 => some ([(k, v)], r5)
        | _ => none
      | _ => none
    | _ => none
end

/-- Model of `serde_json::from_str::<Value>`: one JSON value, possibly
surrounded by whitespace, consuming the whole input. -/
def Json.parse? (s : String) : Option Json :=
  match parseVal (2 * s.data.length + 4) s.data with
  | some (j, rest) => if (skipWs rest).isEmpty then some j else none
  | none => none

/-! Rust string primitives used by the embedded functions. -/

/-- Unicode `White_Space`, the set trimmed by Rust `str::trim`. -/
def isRustWhitespace (c : Char) : Bool :=
  c = ' ' || c = '\t' || c = '\n' || c = '\r' || c = '\x0b' || c = '\x0c' ||
  c.toNat = 0x85 || c.toNat = 0xA0 || c.toNat = 0x1680 ||
  (0x2000 ≤ c.toNat && c.toNat ≤ 0x200A) ||
  c.toNat = 0x2028 || c.toNat = 0x2029 || c.toNat = 0x202F ||
  c.toNat = 0x205F || c.toNat = 0x3000

/-- Model of Rust `str::trim`. -/
def rustTrim (s : String) : String :=
  String.mk (((s.data.dropWhile isRustWhitespace).reverse.dropWhile isRustWhitespace).reverse)

/-- Model of Rust `str::lines`: lines split at a line feed, with a
carriage return immediately before the line feed stripped; a final line
without terminator is kept (including a bare trailing carriage return);
an empty input yields no lines. -/
def rustLinesAux : List Char → List Char → List String
  | [], acc => if acc.isEmpty then [] else [String.mk acc.reverse]
  | '\n' :: rest, acc =>
    (match acc with
     | '\r' :: t => String.mk t.reverse
     | _ => String.mk acc.reverse) :: rustLinesAux rest []
  | c :: rest, acc => rustLinesAux rest (c :: acc)

def rustLines (s : String) : List String := rustLinesAux s.data []

/-- Model of Rust `str::to_lowercase` restricted to the ASCII mapping
(`Char.toLower` lowers exactly the ASCII uppercase letters).  The full
Unicode mapping never lowers a character into the ASCII letters compared
against in this program, so the restriction is behaviour-preserving for
every comparison the embedded code performs. -/
def rustToLowercase (s : String) : String := String.mk (s.data.map Char.toLower)

/-- Model of Rust `str::len`: the length in UTF-8 bytes. -/
def rustByteLen (s : String) : Nat := s.data.foldl (fun n c => n + c.utf8Size) 0

/-- Model of Rust `char::is_alphanumeric` (Unicode `Alphabetic` or
category `N`), restricted to the Basic Latin, Latin-1 Supplement and
Latin Extended-A blocks; code points beyond U+017F are mapped to
`false`.  On the listed blocks the table below is exact. -/
def rustIsAlphanumeric (c : Char) : Bool :=
  c.isAlpha || c.isDigit ||
  c.toNat = 0xAA || c.toNat = 0xB5 || c.toNat = 0xBA ||
  (0xB2 ≤ c.toNat && c.toNat ≤ 0xB3) || c.toNat = 0xB9 ||
  (0xBC ≤ c.toNat && c.toNat ≤ 0xBE) ||
  (0xC0 ≤ c.toNat && c.toNat ≤ 0xFF && c.toNat ≠ 0xD7 && c.toNat ≠ 0xF7) ||
  (0x100 ≤ c.toNat && c.toNat ≤ 0x17F)

/-! Error type of the supervisor, from `enum AppError`.  The `Io` and
`Json` carrier variants wrap foreign error values; I/O failure is
modelled where it matters by explicit environment flags, and the
`serde` detail text inside messages is abstracted away, so those two
variants are not needed by any embedded function below. -/

inductive AppErr where
  | serverTimeout : Nat → AppErr
  | invalidInput : String → AppErr
  | notFound : String → AppErr
  | process : String → AppErr
deriving DecidableEq

/-- The `thiserror` display strings, used when a command converts an
`AppError` into the `String` it returns to the UI layer. -/
def AppErr.toMessage : AppErr → String
  | .serverTimeout n => "Server startup timed out after " ++ toString n ++ " seconds"
  | .invalidInput m => "Invalid input: " ++ m
  | .notFound m => "Not found: " ++ m
  | .process m => "Process error: " ++ m

/-- Embedding of `validate_safe_id`: empty check, byte-length check,
then the character-class check. -/
def validate_safe_id (id label : String) : Except AppErr Unit :=
  if id.data.isEmpty then
    .error (.invalidInput (label ++ " must not be empty"))
  else if 256 < rustByteLen id then
    .error (.invalidInput (label ++ " is too long"))
  else if id.data.all (fun c => rustIsAlphanumeric c || c = '-' || c = '_') then
    .ok ()
  else
    .error (.invalidInput
      (label ++ " contains invalid characters (only alphanumeric, hyphens, underscores allowed)"))

/-- Modelled from the spec (claim C2): the acceptance predicate the
claim asserts for `validate_safe_id` — character count between 1 and
256 and every character drawn from `[A-Za-z0-9_-]`.  Kept separate from
the embedding of the code so the two can be compared. -/
def specSafeId (id : String) : Bool :=
  decide (1 ≤ id.data.length) && decide (id.data.length ≤ 256) &&
  id.data.all (fun c => c.isAlphanum || c = '-' || c = '_')

/-! Field accessors mirroring the `serde` derive semantics: fields are
looked up by their camelCase name, required fields of the wrong shape
fail, unknown fields are ignored, and `Option` fields treat a missing
key like an explicit `null`. -/

def jlookup : List (String × Json) → String → Option Json
  | [], _ => none
  | (k2, v) :: rest, k => if k2 = k then some v else jlookup rest k

def getStr (kvs : List (String × Json)) (k : String) : Option String :=
  match jlookup kvs k with
  | some (.str s) => some s
  | _ => none

def getBool (kvs : List (String × Json)) (k : String) : Option Bool :=
  match jlookup kvs k with
  | some (.bool b) => some b
  | _ => none

/-- Deserialization of a `u32` field: a non-negative integral number
below `2^32`. -/
def getU32 (kvs : List (String × Json)) (k : String) : Option Nat :=
  match jlookup kvs k with
  | some (.num (.ofNat m)) => if m < 4294967296 then some m else none
  | _ => none

/-- Deserialization of a `u16` field: a non-negative integral number
below `2^16`. -/
def getU16 (kvs : List (String × Json)) (k : String) : Option Nat :=
  match jlookup kvs k with
  | some (.num (.ofNat m)) => if m < 65536 then some m else none
  | _ => none

/-- Deserialization of an `Option<String>` field: missing or `null`
gives `none`, a string gives `some`, anything else is an error. -/
def getOptStr (kvs : List (String × Json)) (k : String) : Option (Option String) :=
  match jlookup kvs k with
  | none => some none
  | some .null => some none
  | some (.str s) => some (some s)
  | some _ => none

/-! The `TranscriptEvent` envelope (`struct TranscriptEvent`). -/

structure TranscriptEvent where
  ts : String
  thread_id : String
  direction : String
  payload : Json

/-- Derived `Deserialize` for `TranscriptEvent` with
`rename_all = "camelCase"`. -/
def TranscriptEvent.fromJson? (j : Json) : Option TranscriptEvent :=
  match j with
  | .obj kvs => do
    let ts ← getStr kvs "ts"
    let thread_id ← getStr kvs "threadId"
    let direction ← getStr kvs "direction"
    let payload ← jlookup kvs "payload"
    pure ⟨ts, thread_id, direction, payload⟩
  | _ => none

/-- Derived `Serialize` for `TranscriptEvent`: fields in declaration
order under their camelCase names. -/
def TranscriptEvent.toJson (e : TranscriptEvent) : Json :=
  .obj [("ts", .str e.ts), ("threadId", .str e.thread_id),
        ("direction", .str e.direction), ("payload", e.payload)]

/-! The handshake message (`struct ServerListening`). -/

structure ServerListening where
  type : String
  url : String
  port : Nat
  cwd : String
deriving DecidableEq

def ServerListening.fromJson? (j : Json) : Option ServerListening :=
  match j with
  | .obj kvs => do
    let ty ← getStr kvs "type"
    let url ← getStr kvs "url"
    let port ← getU16 kvs "port"
    let cwd ← getStr kvs "cwd"
    pure ⟨ty, url, port, cwd⟩
  | _ => none

/-- Embedding of `serde_json::from_str::<ServerListening>(first_line.trim())`. -/
def parseServerListening (s : String) : Option ServerListening :=
  (Json.parse? (rustTrim s)).bind ServerListening.fromJson?

/-! The persisted-state document (`struct PersistedState` and its two
record types). -/

structure WorkspaceRecord where
  id : String
  name : String
  path : String
  created_at : String
  last_opened_at : String
  default_provider : Option String
  default_model : Option String
  default_enable_mcp : Bool
  yolo : Bool
deriving DecidableEq

structure ThreadRecord where
  id : String
  workspace_id : String
  title : String
  created_at : String
  last_message_at : String
  status : String
deriving DecidableEq

/-- Model of `PersistedState` with `version : u32` as a natural number;
the `u32` range appears as an explicit bound where it matters. -/
structure PersistedState where
  version : Nat
  workspaces : List WorkspaceRecord
  threads : List ThreadRecord
deriving DecidableEq

def optStrJson : Option String → Json
  | none => .null
  | some s => .str s

def WorkspaceRecord.toJson (w : WorkspaceRecord) : Json :=
  .obj [("id", .str w.id), ("name", .str w.name), ("path", .str w.path),
        ("createdAt", .str w.created_at), ("lastOpenedAt", .str w.last_opened_at),
        ("defaultProvider", optStrJson w.default_provider),
        ("defaultModel", optStrJson w.default_model),
        ("defaultEnableMcp", .bool w.default_enable_mcp), ("yolo", .bool w.yolo)]

def WorkspaceRecord.fromJson? (j : Json) : Option WorkspaceRecord :=
  match j with
  | .obj kvs => do
    let id ← getStr kvs "id"
    let name ← getStr kvs "name"
    let path ← getStr kvs "path"
    let created_at ← getStr kvs "createdAt"
    let last_opened_at ← getStr kvs "lastOpenedAt"
    let default_provider ← getOptStr kvs "defaultProvider"
    let default_model ← getOptStr kvs "defaultModel"
    let default_enable_mcp ← getBool kvs "defaultEnableMcp"
    let yolo ← getBool kvs "yolo"
    pure ⟨id, name, path, created_at, last_opened_at, default_provider,
          default_model, default_enable_mcp, yolo⟩
  | _ => none

def ThreadRecord.toJson (t : ThreadRecord) : Json :=
  .obj [("id", .str t.id), ("workspaceId", .str t.workspace_id), ("title", .str t.title),
        ("createdAt", .str t.created_at), ("lastMessageAt", .str t.last_message_at),
        ("status", .str t.status)]

def ThreadRecord.fromJson? (j : Json) : Option ThreadRecord :=
  match j with
  | .obj kvs => do
    let id ← getStr kvs "id"
    let workspace_id ← getStr kvs "workspaceId"
    let title ← getStr kvs "title"
    let created_at ← getStr kvs "createdAt"
    let last_message_at ← getStr kvs "lastMessageAt"
    let status ← getStr kvs "status"
    pure ⟨id, workspace_id, title, created_at, last_message_at, status⟩
  | _ => none

def jsonToList (f : Json → Option α) : Json → Option (List α)
  | .arr xs => xs.mapM f
  | _ => none

def PersistedState.toJson (s : PersistedState) : Json :=
  .obj [("version", .num (Int.ofNat s.version)),
        ("workspaces", .arr (s.workspaces.map WorkspaceRecord.toJson)),
        ("threads", .arr (s.threads.map ThreadRecord.toJson))]

def PersistedState.fromJson? (j : Json) : Option PersistedState :=
  match j with
  | .obj kvs => do
    let version ← getU32 kvs "version"
    let workspaces ← jlookup kvs "workspaces" >>= jsonToList WorkspaceRecord.fromJson?
    let threads ← jlookup kvs "threads" >>= jsonToList ThreadRecord.fromJson?
    pure ⟨version, workspaces, threads⟩
  | _ => none

/-! State persistence (`load_state`, `save_state`).  The state file is
modelled at the JSON-value level: `serde_json` string rendering and
re-parsing of its own output is the identity on values, so the file
holds the `Json` document directly.  The surrounding app-data directory
and the I/O success of the write and rename steps are environment
parameters. -/

/-- Filesystem slice seen by the state store: the committed file
(`state.json`) and the sibling temporary file (`state.json.tmp`),
each present or absent. -/
structure StateFs where
  real : Option Json
  tmp : Option Json

/-- Model of Rust `Path::file_stem` on a file name: the portion before
the last dot, with a name whose only dot is the leading character kept
whole. -/
def fileStem (name : String) : String :=
  let revd := name.data.reverse
  if revd.contains '.' then
    let rest := (revd.dropWhile (· ≠ '.')).drop 1
    if rest.isEmpty then name else String.mk rest.reverse
  else name

/-- Model of Rust `Path::with_extension` on a file name. -/
def with_extension (name ext : String) : String := fileStem name ++ "." ++ ext

/-- The committed state file name (`state_file_path`). -/
def stateFileName : String := "state.json"

/-- The temporary file name `p.with_extension("json.tmp")` used by
`save_state`. -/
def stateTmpFileName : String := with_extension stateFileName "json.tmp"

/-- Embedding of `load_state`.  `file` is the committed state file:
`none` when no file exists.  A missing file yields the default document
(version 1, empty collections); a document that fails to deserialize is
an error; a parsed document with version zero is normalized to
version 1. -/
def load_state (file : Option Json) : Except String PersistedState :=
  match file with
  | none => .ok ⟨1, [], []⟩
  | some j =>
    match PersistedState.fromJson? j with
    | none => .error "Failed to parse state file JSON"
    | some parsed => .ok (if parsed.version = 0 then { parsed with version := 1 } else parsed)

/-- Embedding of `save_state`: serialize the full document, write it to
the temporary file (failure leaves the filesystem as it was), then
rename the temporary file over the committed file (failure leaves the
committed file as it was).  The pair returned is the command result and
the filesystem after the call. -/
def save_state (fs : StateFs) (doc : PersistedState) (writeOk renameOk : Bool) :
    Except String Unit × StateFs :=
  let raw := PersistedState.toJson doc
  if !writeOk then (.error "Failed to write temp state file", fs)
  else if !renameOk then (.error "Failed to rename state file", { fs with tmp := some raw })
  else (.ok (), { real := some raw, tmp := none })

/-! Transcript log (`read_transcript`, `append_transcript_event`,
`append_transcript_batch`).  The transcripts directory is modelled as a
total map from thread identifier to file content (the empty string for
an absent file on the append paths); `read_transcript` additionally
distinguishes a missing file. -/

/-- Path of a thread transcript, relative to the app data directory
(`transcript_file_path`). -/
def transcript_file_path (thread_id : String) : String :=
  "transcripts/" ++ thread_id ++ ".jsonl"

/-- The parse-failure message of `read_transcript`, carrying the 1-based
line number and the file path.  The trailing `serde` detail text is
abstracted away. -/
def parseErrMsg (lineNo : Nat) (path : String) : String :=
  "Failed to parse transcript line " ++ toString lineNo ++ " (" ++ path ++ ")"

/-- One line of a transcript file, parsed as in the source:
`serde_json::from_str::<TranscriptEvent>(trimmed)`. -/
def parseTranscriptLine (s : String) : Option TranscriptEvent :=
  (Json.parse? s).bind TranscriptEvent.fromJson?

/-- The line loop of `read_transcript` over the enumerated lines:
blank lines are skipped, a line that fails to parse aborts the whole
read with its 1-based number, parsed events are collected in order. -/
def readTranscriptLines (path : String) : List (Nat × String) → Except String (List TranscriptEvent)
  | [] => .ok []
  | (idx, line) :: rest =>
    let trimmed := rustTrim line
    if trimmed.data.isEmpty then readTranscriptLines path rest
    else
      match parseTranscriptLine trimmed with
      | some evt => (readTranscriptLines path rest).map (evt :: ·)
      | none => .error (parseErrMsg (idx + 1) path)

/-- Embedding of `read_transcript`.  `file` is the transcript file for
`thread_id`: `none` when no file exists (an empty result, not an
error). -/
def read_transcript (thread_id : String) (file : Option String) :
    Except String (List TranscriptEvent) :=
  match validate_safe_id thread_id "thread_id" with
  | .error e => .error e.toMessage
  | .ok _ =>
    match file with
    | none => .ok []
    | some raw => readTranscriptLines (transcript_file_path thread_id) (rustLines raw).enum

/-- Serialization of one stored transcript line: the compact JSON of the
event followed by a line feed. -/
def serializeEventLine (e : TranscriptEvent) : String :=
  (TranscriptEvent.toJson e).render ++ "\n"

/-- Embedding of `append_transcript_event`: validate the thread id,
normalize and check the direction, then append one serialized line to
the file of that thread (created on demand). -/
def append_transcript_event (fs : String → String) (ts thread_id direction : String)
    (payload : Json) : Except String (String → String) :=
  match validate_safe_id thread_id "thread_id" with
  | .error e => .error e.toMessage
  | .ok _ =>
    let direction_norm := rustToLowercase (rustTrim direction)
    if direction_norm ≠ "server" ∧ direction_norm ≠ "client" then
      .error "direction must be \x27server\x27 or \x27client\x27"
    else
      .ok (fun t =>
        if t = thread_id then fs t ++ serializeEventLine ⟨ts, thread_id, direction_norm, payload⟩
        else fs t)

/-- One entry of a batch append (`struct TranscriptBatchItem`; its
fields coincide with `TranscriptEvent`). -/
structure TranscriptBatchItem where
  ts : String
  thread_id : String
  direction : String
  payload : Json

/-- The per-event validation of the batch loop: thread id, then
direction after trim and lowercasing. -/
def checkBatchItem (e : TranscriptBatchItem) : Except String Unit :=
  match validate_safe_id e.thread_id "thread_id" with
  | .error err => .error err.toMessage
  | .ok _ =>
    let direction := rustToLowercase (rustTrim e.direction)
    if direction ≠ "server" ∧ direction ≠ "client" then
      .error "direction must be \x27server\x27 or \x27client\x27"
    else .ok ()

/-- Appending one event to the group map: events are grouped by thread
identifier, keeping the events of each thread in batch order.  The source
groups through a hash map whose key iteration order is unspecified; the
model fixes first-occurrence key order, which does not affect the final
file contents because distinct groups write to distinct files. -/
def insertGrouped (acc : List (String × List TranscriptBatchItem)) (e : TranscriptBatchItem) :
    List (String × List TranscriptBatchItem) :=
  match acc with
  | [] => [(e.thread_id, [e])]
  | (k, es) :: rest =>
    if k = e.thread_id then (k, es ++ [e]) :: rest else (k, es) :: insertGrouped rest e

/-- The first loop of `append_transcript_batch`: validate each event in
order (the first invalid event aborts the whole call before any write)
while grouping the events by thread. -/
def buildGroups : List TranscriptBatchItem → List (String × List TranscriptBatchItem) →
    Except String (List (String × List TranscriptBatchItem))
  | [], acc => .ok acc
  | e :: rest, acc =>
    match checkBatchItem e with
    | .error msg => .error msg
    | .ok _ => buildGroups rest (insertGrouped acc e)

/-- The serialized line the batch writer produces for one entry (the
direction is normalized exactly as in `append_transcript_event`). -/
def batchLine (e : TranscriptBatchItem) : String :=
  serializeEventLine ⟨e.ts, e.thread_id, rustToLowercase (rustTrim e.direction), e.payload⟩

/-- The single buffered write for the group of events of one thread. -/
def writeGroup (fs : String → String) (g : String × List TranscriptBatchItem) :
    String → String :=
  fun t => if t = g.1 then fs t ++ String.join (g.2.map batchLine) else fs t

/-- Embedding of `append_transcript_batch`: an empty batch is a no-op;
otherwise validate-and-group, then perform one append per distinct
thread. -/
def append_transcript_batch (fs : String → String) (events : List TranscriptBatchItem) :
    Except String (String → String) :=
  if events.isEmpty then .ok fs
  else
    match buildGroups events [] with
    | .error msg => .error msg
    | .ok groups => .ok (groups.foldl writeGroup fs)

/-- Sequential reference for claim C6: `append_transcript_event` called
for every batch entry in original order. -/
def appendSeq (fs : String → String) : List TranscriptBatchItem →
    Except String (String → String)
  | [] => .ok fs
  | e :: rest =>
    match append_transcript_event fs e.ts e.thread_id e.direction e.payload with
    | .error msg => .error msg
    | .ok fs2 => appendSeq fs2 rest

/-! Workspace server registry and `start_workspace_server`.  The
registry (`ServerManager.servers`) is a map from workspace identifier to
a handle; the child process itself, the workspace-path check and the
handshake are environment parameters.  One call of the command is one
step of the model. -/

/-- A registry entry: the advertised URL of the owned child process
(`struct ServerHandle`; the OS process handle itself is environment). -/
structure ServerHandle where
  url : String
deriving DecidableEq

/-- The mutex-guarded map, as an association list with map semantics
(insert replaces, lookup finds the unique entry). -/
abbrev Registry := List (String × ServerHandle)

def regLookup : Registry → String → Option ServerHandle
  | [], _ => none
  | (k, h) :: rest, w => if k = w then some h else regLookup rest w

def regRemove : Registry → String → Registry
  | [], _ => []
  | (k, h) :: rest, w => if k = w then regRemove rest w else (k, h) :: regRemove rest w

def regInsert (reg : Registry) (w : String) (h : ServerHandle) : Registry :=
  (w, h) :: regRemove reg w

/-- Result of `child.try_wait()` on a registered handle, observed at the
moment of the call: still running, already exited, or the check itself
failed with an OS error message. -/
inductive ProcStatus where
  | running : ProcStatus
  | exited : ProcStatus
  | statusErr : String → ProcStatus
deriving DecidableEq

/-- What the handshake observes after a child process was created:
no first line within the timeout, the oneshot channel closed without a
line, or a first stdout line. -/
inductive HandshakeOutcome where
  | timeout : HandshakeOutcome
  | readerClosed : HandshakeOutcome
  | line : String → HandshakeOutcome
deriving DecidableEq

/-- Environment of the spawn phase: either the call fails before a
child process exists (missing entrypoint, missing bundled resources,
missing sidecar, or `Command::spawn` failure), or a child is created
and the handshake runs. -/
inductive SpawnEnv where
  | preSpawnErr : AppErr → SpawnEnv
  | spawned : HandshakeOutcome → SpawnEnv
deriving DecidableEq

def SERVER_STARTUP_TIMEOUT_SECS : Nat := 15

/-- Observable outcome of one `start_workspace_server` call.
`spawned` records whether the call created a child process;
`childStillRunning` records whether that child is still running when
the call returns, assuming the child does not exit of its own accord —
the source contains no termination call on any path of this command, so
a spawned child is never stopped by it; `childRegistered` records
whether the handle of the child was inserted into the registry. -/
instance [DecidableEq ε] [DecidableEq α] : DecidableEq (Except ε α) := fun a b =>
  match a, b with
  | .error e1, .error e2 =>
    if h : e1 = e2 then .isTrue (by rw [h]) else .isFalse (by intro hc; cases hc; exact h rfl)
  | .ok v1, .ok v2 =>
    if h : v1 = v2 then .isTrue (by rw [h]) else .isFalse (by intro hc; cases hc; exact h rfl)
  | .error _, .ok _ => .isFalse (by intro hc; cases hc)
  | .ok _, .error _ => .isFalse (by intro hc; cases hc)

structure StartOutcome where
  ret : Except String String
  registry : Registry
  spawned : Bool
  childStillRunning : Bool
  childRegistered : Bool
deriving DecidableEq

/-- The spawn-and-handshake phase of `start_workspace_server`, entered
after the registry check found no live entry.  On a handshake timeout
the call returns `AppError::ServerTimeout`; on a closed reader channel
or an unparseable first line it returns `AppError::Process`; in each of
these failure cases the spawned child is neither terminated nor
registered.  On a parsed handshake line the handle is inserted and the
advertised URL returned. -/
def startSpawnPhase (reg : Registry) (workspace_id : String) (env : SpawnEnv) : StartOutcome :=
  match env with
  | .preSpawnErr e => ⟨.error e.toMessage, reg, false, false, false⟩
  | .spawned outcome =>
    match outcome with
    | .timeout =>
      ⟨.error (AppErr.serverTimeout SERVER_STARTUP_TIMEOUT_SECS).toMessage,
       reg, true, true, false⟩
    | .readerClosed =>
      ⟨.error (AppErr.process
          "Failed to read server startup line: server stdout reader closed").toMessage,
       reg, true, true, false⟩
    | .line s =>
      match parseServerListening s with
      | none =>
        ⟨.error (AppErr.process "Failed to parse server startup JSON").toMessage,
         reg, true, true, false⟩
      | some listening =>
        ⟨.ok listening.url, regInsert reg workspace_id ⟨listening.url⟩, true, true, true⟩

/-- Embedding of `start_workspace_server`: validate the workspace id,
check the workspace path (`pathErr` is the answer of the environment), then
under the registry lock look for an existing entry — a live entry
returns its cached URL without spawning, an exited entry is removed and
the call proceeds to spawn, a failed status check removes the entry and
returns a process error — and otherwise run the spawn phase. -/
def start_workspace_server (reg : Registry) (workspace_id : String)
    (pathErr : Option AppErr) (probe : ProcStatus) (env : SpawnEnv) : StartOutcome :=
  match validate_safe_id workspace_id "workspace_id" with
  | .error e => ⟨.error e.toMessage, reg, false, false, false⟩
  | .ok _ =>
    match pathErr with
    | some e => ⟨.error e.toMessage, reg, false, false, false⟩
    | none =>
      match regLookup reg workspace_id with
      | some handle =>
        match probe with
        | .running => ⟨.ok handle.url, reg, false, false, false⟩
        | .exited => startSpawnPhase (regRemove reg workspace_id) workspace_id env
        | .statusErr msg =>
          ⟨.error (AppErr.process ("Failed to check server process status: " ++ msg)).toMessage,
           regRemove reg workspace_id, false, false, false⟩
      | none => startSpawnPhase reg workspace_id env

/-! General lemmas about the modelling primitives. -/

theorem string_join_cons (a : String) (l : List String) :
    String.join (a :: l) = a ++ String.join l := by
  show (a :: l).foldl (· ++ ·) "" = a ++ l.foldl (· ++ ·) ""
  have key : ∀ (l : List String) (x : String), l.foldl (· ++ ·) x = x ++ l.foldl (· ++ ·) "" := by
    intro l
    induction l with
    | nil => intro x; simp [List.foldl, String.append_empty]
    | cons b l ih =>
      intro x
      simp only [List.foldl]
      rw [ih (x ++ b), ih ("" ++ b), String.empty_append, String.append_assoc]
  simpa [List.foldl, String.empty_append] using key l a

theorem rustByteLen_pos {s : String} (h : s.data ≠ []) : 0 < rustByteLen s := by
  unfold rustByteLen
  obtain ⟨c, cs, hcs⟩ : ∃ c cs, s.data = c :: cs := by
    cases hd : s.data with
    | nil => exact absurd hd h
    | cons c cs => exact ⟨c, cs, rfl⟩
  rw [hcs]
  have grow : ∀ (cs : List Char) (n : Nat),
      n ≤ cs.foldl (fun acc c => acc + c.utf8Size) n := by
    intro cs
    induction cs with
    | nil => intro n; exact Nat.le_refl n
    | cons d cs ih =>
      intro n
      exact Nat.le_trans (Nat.le_add_right n d.utf8Size) (ih (n + d.utf8Size))
  calc 0 < 0 + c.utf8Size := Nat.add_pos_right 0 (Char.utf8Size_pos c)
    _ ≤ (c :: cs).foldl (fun acc c => acc + c.utf8Size) 0 := by
        simp only [List.foldl]; exact grow cs (0 + c.utf8Size)

theorem rustByteLen_empty_data {s : String} (h : s.data = []) : rustByteLen s = 0 := by
  unfold rustByteLen; rw [h]; rfl

/-! Lossless serde round trip of the persisted-state records. -/

theorem workspaceRecord_roundtrip (w : WorkspaceRecord) :
    WorkspaceRecord.fromJson? (WorkspaceRecord.toJson w) = some w := by
  obtain ⟨id, name, path, ca, lo, dp, dm, mcp, yolo⟩ := w
  cases dp <;> cases dm <;> rfl

theorem threadRecord_roundtrip (t : ThreadRecord) :
    ThreadRecord.fromJson? (ThreadRecord.toJson t) = some t := by
  obtain ⟨id, wsid, title, ca, lm, st⟩ := t
  rfl

theorem jsonToList_roundtrip {α} (f : α → Json) (g : Json → Option α)
    (h : ∀ a, g (f a) = some a) (l : List α) :
    jsonToList g (.arr (l.map f)) = some l := by
  show (l.map f).mapM g = some l
  induction l with
  | nil => rfl
  | cons a l ih =>
    rw [List.map_cons, List.mapM_cons, h a, ih]
    rfl

theorem persistedState_roundtrip (d : PersistedState) (hv : d.version < 4294967296) :
    PersistedState.fromJson? (PersistedState.toJson d) = some d := by
  obtain ⟨v, ws, ths⟩ := d
  have hws := jsonToList_roundtrip WorkspaceRecord.toJson WorkspaceRecord.fromJson?
    workspaceRecord_roundtrip ws
  have hths := jsonToList_roundtrip ThreadRecord.toJson ThreadRecord.fromJson?
    threadRecord_roundtrip ths
  have hv2 : v < 4294967296 := hv
  simp [PersistedState.toJson, PersistedState.fromJson?, jlookup, getU32, hws, hths, hv2]

/-! Claim theorems. -/

/-- C9: when no backing state file exists, `load_state` returns the
default document — version 1, empty workspace and thread collections —
and reports no error. -/
theorem C9_load_state_missing_file_default :
    load_state none = .ok ⟨1, [], []⟩ := rfl

/-- C7: `save_state` never writes to the committed state file directly:
the write goes to the sibling temporary file, whose name
(`state.json.tmp`) is distinct from the committed name (`state.json`),
and in every execution in which the write step fails (and likewise when
the subsequent rename fails) the call returns an error and the
content of the committed file is unchanged. -/
theorem C7_save_state_write_failure_preserves_committed :
    (∀ (fs : StateFs) (doc : PersistedState) (renameOk : Bool),
      (save_state fs doc false renameOk).1 = .error "Failed to write temp state file" ∧
      (save_state fs doc false renameOk).2.real = fs.real) ∧
    (∀ (fs : StateFs) (doc : PersistedState),
      (save_state fs doc true false).1 = .error "Failed to rename state file" ∧
      (save_state fs doc true false).2.real = fs.real) ∧
    stateTmpFileName = "state.json.tmp" ∧ stateTmpFileName ≠ stateFileName := by
  exact ⟨fun fs doc renameOk => ⟨rfl, rfl⟩, fun fs doc => ⟨rfl, rfl⟩, by decide, by decide⟩

/-- C3 counterexample: a persisted document with no version field at all
(here with well-formed empty collections) is rejected by `load_state`
with a parse error, where the claim says it is returned with version
normalized to 1 and no error reported. -/
theorem C3_counterexample_missing_version_rejected :
    load_state (some (.obj [("workspaces", .arr []), ("threads", .arr [])])) =
      .error "Failed to parse state file JSON" := by decide

/-- C3 (amended): a parsed document whose version field equals zero is
returned with version normalized to 1 and no error; a document whose
version field is missing fails deserialization and is rejected. -/
theorem C3_version_zero_normalized (d : PersistedState) (h0 : d.version = 0)
    (kvs : List (String × Json)) (hmiss : jlookup kvs "version" = none) :
    load_state (some (PersistedState.toJson d)) = .ok { d with version := 1 } ∧
    load_state (some (.obj kvs)) = .error "Failed to parse state file JSON" := by
  constructor
  · have hv : d.version < 4294967296 := by rw [h0]; decide
    simp [load_state, persistedState_roundtrip d hv, h0]
  · simp [load_state, PersistedState.fromJson?, getU32, hmiss]

theorem C3_version_zero_normalized_witness :
    load_state (some (PersistedState.toJson ⟨0, [], []⟩)) = .ok ⟨1, [], []⟩ ∧
    load_state (some (.obj [])) = .error "Failed to parse state file JSON" :=
  C3_version_zero_normalized ⟨0, [], []⟩ rfl [] rfl

/-- C4 counterexample: saving the document with version 0 and empty
collections succeeds, but loading it back yields the document with
version 1 — not a document deep-equal to the one saved. -/
theorem C4_counterexample_version_zero_not_roundtripped :
    (save_state ⟨none, none⟩ ⟨0, [], []⟩ true true).1 = .ok () ∧
    load_state (save_state ⟨none, none⟩ ⟨0, [], []⟩ true true).2.real = .ok ⟨1, [], []⟩ ∧
    (⟨1, [], []⟩ : PersistedState) ≠ ⟨0, [], []⟩ := by decide

/-- C4 (amended): for every document whose version is a nonzero `u32`
value, a successful `save_state` followed by `load_state` returns a
document deep-equal to the one saved, including documents with empty
collections. -/
theorem C4_save_load_roundtrip (fs : StateFs) (d : PersistedState)
    (hv : d.version < 4294967296) (h0 : d.version ≠ 0) :
    (save_state fs d true true).1 = .ok () ∧
    load_state (save_state fs d true true).2.real = .ok d := by
  refine ⟨rfl, ?_⟩
  simp [save_state, load_state, persistedState_roundtrip d hv, h0]

theorem C4_save_load_roundtrip_witness :
    (save_state ⟨none, none⟩
        ⟨2, [⟨"w1", "name", "/tmp/w", "c", "o", none, some "m", true, false⟩],
            [⟨"t1", "w1", "title", "c", "l", "active"⟩]⟩ true true).1 = .ok () ∧
    load_state (save_state ⟨none, none⟩
        ⟨2, [⟨"w1", "name", "/tmp/w", "c", "o", none, some "m", true, false⟩],
            [⟨"t1", "w1", "title", "c", "l", "active"⟩]⟩ true true).2.real =
      .ok ⟨2, [⟨"w1", "name", "/tmp/w", "c", "o", none, some "m", true, false⟩],
              [⟨"t1", "w1", "title", "c", "l", "active"⟩]⟩ :=
  C4_save_load_roundtrip ⟨none, none⟩ _ (by decide) (by decide)

/-- C2 counterexample: the one-character identifier `é` contains a
character outside `[A-Za-z0-9_-]`, so the claim predicts rejection, yet
`validate_safe_id` accepts it (Rust `char::is_alphanumeric` is
Unicode-wide). -/
theorem C2_counterexample_unicode_letter_accepted :
    validate_safe_id "é" "workspace_id" = .ok () ∧ specSafeId "é" = false := by decide

/-- C2 (amended): `validate_safe_id` succeeds exactly when the
UTF-8 byte length of the identifier is between 1 and 256 and every character
is Unicode-alphanumeric, a hyphen, or an underscore. -/
theorem C2_validate_safe_id_iff (id label : String) :
    validate_safe_id id label = .ok () ↔
      (1 ≤ rustByteLen id ∧ rustByteLen id ≤ 256 ∧
       id.data.all (fun c => rustIsAlphanumeric c || c = '-' || c = '_') = true) := by
  unfold validate_safe_id
  by_cases hemp : id.data.isEmpty = true
  · have hz : rustByteLen id = 0 := rustByteLen_empty_data (List.isEmpty_iff.mp hemp)
    simp [hemp, hz]
  · have hne : id.data ≠ [] := by
      intro hd; exact hemp (List.isEmpty_iff.mpr hd)
    have hpos : 1 ≤ rustByteLen id := rustByteLen_pos hne
    by_cases hlen : 256 < rustByteLen id
    · simp only [hemp, hlen, reduceIte, Bool.false_eq_true, if_false]
      constructor
      · intro h; cases h
      · intro h; omega
    · by_cases hall : id.data.all (fun c => rustIsAlphanumeric c || c = '-' || c = '_') = true
      · simp [hemp, hlen, hall, hpos]
        omega
      · simp [hemp, hlen, hall]

theorem C2_validate_safe_id_iff_witness :
    validate_safe_id "ab-C_9" "workspace_id" = .ok () :=
  (C2_validate_safe_id_iff "ab-C_9" "workspace_id").mpr (by decide)

/-- C1: the failing input is a spawn whose handshake fails — either no
first line within the 15-second window, or a first line that does not
parse as the handshake message.  The call returns the corresponding
typed error (`ServerTimeout`, respectively `Process`), but the source
contains no termination call on these paths, so the spawned child is
still running and absent from the registry when the call returns — the
code contradicts the specified guarantee that no failure path leaves an
unregistered process running. -/
theorem C1_handshake_failure_leaves_child_running :
    (start_workspace_server [] "w1" none .running (.spawned .timeout)).ret =
        .error "Server startup timed out after 15 seconds" ∧
    (start_workspace_server [] "w1" none .running (.spawned .timeout)).spawned = true ∧
    (start_workspace_server [] "w1" none .running (.spawned .timeout)).childStillRunning = true ∧
    (start_workspace_server [] "w1" none .running (.spawned .timeout)).childRegistered = false ∧
    (start_workspace_server [] "w1" none .running (.spawned .timeout)).registry = [] ∧
    (start_workspace_server [] "w1" none .running (.spawned (.line "nonsense"))).ret =
        .error "Process error: Failed to parse server startup JSON" ∧
    (start_workspace_server [] "w1" none .running
        (.spawned (.line "nonsense"))).childStillRunning = true ∧
    (start_workspace_server [] "w1" none .running
        (.spawned (.line "nonsense"))).childRegistered = false := by decide

theorem regLookup_insert_self (reg : Registry) (w : String) (h : ServerHandle) :
    regLookup (regInsert reg w h) w = some h := by
  simp [regInsert, regLookup]

/-- C8: for a workspace whose registered server is still alive, a second
sequential `start_workspace_server` call returns the same URL as the
first and performs no spawn: across the two calls exactly one spawn
occurs.  The first call starts from a registry with no entry for the
workspace, spawns, completes the handshake and registers the handle;
the second call finds the live entry and returns its cached URL. -/
theorem C8_second_call_returns_cached_url (reg : Registry) (wid s : String)
    (L : ServerListening) (probe1 : ProcStatus) (env2 : SpawnEnv)
    (hval : validate_safe_id wid "workspace_id" = .ok ())
    (habsent : regLookup reg wid = none)
    (hparse : parseServerListening s = some L) :
    (start_workspace_server reg wid none probe1 (.spawned (.line s))).ret = .ok L.url ∧
    (start_workspace_server reg wid none probe1 (.spawned (.line s))).spawned = true ∧
    (start_workspace_server
        (start_workspace_server reg wid none probe1 (.spawned (.line s))).registry
        wid none .running env2).ret = .ok L.url ∧
    (start_workspace_server
        (start_workspace_server reg wid none probe1 (.spawned (.line s))).registry
        wid none .running env2).spawned = false := by
  have h1 : start_workspace_server reg wid none probe1 (.spawned (.line s)) =
      ⟨.ok L.url, regInsert reg wid ⟨L.url⟩, true, true, true⟩ := by
    simp [start_workspace_server, hval, habsent, startSpawnPhase, hparse]
  have h2 : start_workspace_server (regInsert reg wid ⟨L.url⟩) wid none .running env2 =
      ⟨.ok L.url, regInsert reg wid ⟨L.url⟩, false, false, false⟩ := by
    simp [start_workspace_server, hval, regLookup_insert_self]
  rw [h1, h2]
  exact ⟨rfl, rfl, rfl, rfl⟩

theorem C8_second_call_returns_cached_url_witness :
    (start_workspace_server [] "w1" none .running
        (.spawned (.line "\x7b\"type\":\"listening\",\"url\":\"http://127.0.0.1:4000\",\"port\":4000,\"cwd\":\"/w\"\x7d"))).ret =
      .ok "http://127.0.0.1:4000" ∧
    (start_workspace_server [] "w1" none .running
        (.spawned (.line "\x7b\"type\":\"listening\",\"url\":\"http://127.0.0.1:4000\",\"port\":4000,\"cwd\":\"/w\"\x7d"))).spawned = true ∧
    (start_workspace_server
        (start_workspace_server [] "w1" none .running
          (.spawned (.line "\x7b\"type\":\"listening\",\"url\":\"http://127.0.0.1:4000\",\"port\":4000,\"cwd\":\"/w\"\x7d"))).registry
        "w1" none .running (.spawned .timeout)).ret = .ok "http://127.0.0.1:4000" ∧
    (start_workspace_server
        (start_workspace_server [] "w1" none .running
          (.spawned (.line "\x7b\"type\":\"listening\",\"url\":\"http://127.0.0.1:4000\",\"port\":4000,\"cwd\":\"/w\"\x7d"))).registry
        "w1" none .running (.spawned .timeout)).spawned = false :=
  C8_second_call_returns_cached_url [] "w1" _
    ⟨"listening", "http://127.0.0.1:4000", 4000, "/w"⟩ .running (.spawned .timeout)
    (by decide) rfl (by decide)

/-- C5 counterexample: a transcript file whose single line is one space.
That line does not parse as a `TranscriptEvent` (structured-data parsing
of a blank string fails), yet `read_transcript` does not fail: it skips
the blank line and returns the empty sequence. -/
theorem C5_counterexample_blank_line_not_fatal :
    (parseTranscriptLine " ").isNone = true ∧
    read_transcript "t1" (some " ") = .ok [] := ⟨by decide, by rfl⟩

/-- Index (0-based, counting blank lines) of the first line that is
neither blank after trimming nor parseable as a transcript event. -/
def firstBadLine : List (Nat × String) → Option Nat
  | [] => none
  | (idx, line) :: rest =>
    let trimmed := rustTrim line
    if trimmed.data.isEmpty then firstBadLine rest
    else if (parseTranscriptLine trimmed).isSome then firstBadLine rest
    else some idx

theorem readTranscriptLines_firstBad (path : String) (lines : List (Nat × String)) :
    ∀ k, firstBadLine lines = some k →
      readTranscriptLines path lines = .error (parseErrMsg (k + 1) path) := by
  induction lines with
  | nil => intro k h; simp [firstBadLine] at h
  | cons p rest ih =>
    obtain ⟨idx, line⟩ := p
    intro k h
    by_cases hb : (rustTrim line).data.isEmpty = true
    · simp only [firstBadLine, hb, reduceIte] at h
      simp only [readTranscriptLines, hb, reduceIte]
      exact ih k h
    · cases hp : parseTranscriptLine (rustTrim line) with
      | some evt =>
        have hsome : (parseTranscriptLine (rustTrim line)).isSome = true := by
          rw [hp]; rfl
        simp only [firstBadLine, hb, hsome, reduceIte, Bool.false_eq_true, if_false,
          if_true] at h
        simp only [readTranscriptLines, hb, hp, Bool.false_eq_true, if_false]
        rw [ih k h]
        rfl
      | none =>
        have hsome : (parseTranscriptLine (rustTrim line)).isSome = false := by
          rw [hp]; rfl
        simp only [firstBadLine, hb, hsome, reduceIte, Bool.false_eq_true, if_false] at h
        cases h
        simp only [readTranscriptLines, hb, hp, Bool.false_eq_true, if_false]

/-- C5 (amended): for every transcript file containing at least one
non-blank line that does not parse as a `TranscriptEvent`, the read
fails as a whole — no partial sequence is returned — and the error
reports the 1-based number of the first such line together with the
file path. -/
theorem C5_read_fails_on_unparseable_line (thread_id raw : String) (k : Nat)
    (hval : validate_safe_id thread_id "thread_id" = .ok ())
    (hbad : firstBadLine (rustLines raw).enum = some k) :
    read_transcript thread_id (some raw) =
      .error (parseErrMsg (k + 1) (transcript_file_path thread_id)) := by
  simp only [read_transcript, hval]
  exact readTranscriptLines_firstBad _ _ k hbad

theorem C5_read_fails_on_unparseable_line_witness :
    validate_safe_id "t1" "thread_id" = .ok () ∧
    firstBadLine (rustLines
      "\x7b\"ts\":\"a\",\"threadId\":\"t1\",\"direction\":\"server\",\"payload\":null\x7d\n\nnope").enum =
      some 2 ∧
    read_transcript "t1" (some
      "\x7b\"ts\":\"a\",\"threadId\":\"t1\",\"direction\":\"server\",\"payload\":null\x7d\n\nnope") =
      .error (parseErrMsg 3 (transcript_file_path "t1")) :=
  ⟨by decide, by decide,
   C5_read_fails_on_unparseable_line "t1" _ 2 (by decide) (by decide)⟩

theorem readTranscriptLines_all_parse (path : String) (lines : List (Nat × String))
    (h : ∀ p ∈ lines, (rustTrim p.2).data.isEmpty = false →
        (parseTranscriptLine (rustTrim p.2)).isSome = true) :
    readTranscriptLines path lines = .ok (lines.filterMap (fun p =>
      if (rustTrim p.2).data.isEmpty then none else parseTranscriptLine (rustTrim p.2))) := by
  induction lines with
  | nil => rfl
  | cons p rest ih =>
    obtain ⟨idx, line⟩ := p
    have hrest := ih (fun q hq => h q (List.mem_cons_of_mem _ hq))
    by_cases hb : (rustTrim line).data.isEmpty = true
    · simp only [readTranscriptLines, hb, reduceIte, List.filterMap_cons]
      exact hrest
    · have hb2 : (rustTrim line).data.isEmpty = false := by
        cases hx : (rustTrim line).data.isEmpty
        · rfl
        · exact absurd hx hb
      have hs := h ⟨idx, line⟩ (List.mem_cons_self _ _) hb2
      cases hp : parseTranscriptLine (rustTrim line) with
      | none => rw [hp] at hs; cases hs
      | some evt =>
        simp only [readTranscriptLines, hb, Bool.false_eq_true, if_false, hp,
          List.filterMap_cons, hrest]
        rfl

theorem filterMap_enumFrom_snd {β} (g : String → Option β) (l : List String) :
    ∀ n, (List.enumFrom n l).filterMap (fun p => g p.2) = l.filterMap g := by
  induction l with
  | nil => intro n; rfl
  | cons a l ih =>
    intro n
    simp only [List.enumFrom, List.filterMap_cons, ih (n + 1)]

/-- C10: `read_transcript` silently skips lines that are empty or
whitespace-only, and when every non-blank line parses, the returned
sequence is exactly the parses of the non-blank lines in file order. -/
theorem C10_read_skips_blank_lines (thread_id raw : String)
    (hval : validate_safe_id thread_id "thread_id" = .ok ())
    (h : ∀ l ∈ rustLines raw, (rustTrim l).data.isEmpty = false →
        (parseTranscriptLine (rustTrim l)).isSome = true) :
    read_transcript thread_id (some raw) =
      .ok ((rustLines raw).filterMap (fun l =>
        if (rustTrim l).data.isEmpty then none else parseTranscriptLine (rustTrim l))) := by
  simp only [read_transcript, hval]
  rw [readTranscriptLines_all_parse _ _ (fun p hp hnb => by
    have hmem : p.2 ∈ rustLines raw := by
      have : p.2 ∈ (rustLines raw).enum.map Prod.snd := List.mem_map_of_mem Prod.snd hp
      rwa [List.enum_map_snd] at this
    exact h p.2 hmem hnb)]
  show Except.ok ((List.enumFrom 0 (rustLines raw)).filterMap _) = _
  rw [filterMap_enumFrom_snd (fun l =>
    if (rustTrim l).data.isEmpty then none else parseTranscriptLine (rustTrim l))
    (rustLines raw) 0]

theorem C10_read_skips_blank_lines_witness :
    validate_safe_id "t1" "thread_id" = .ok () ∧
    (∀ l ∈ rustLines
        "\n\x7b\"ts\":\"a\",\"threadId\":\"t1\",\"direction\":\"server\",\"payload\":1\x7d\n  \n\x7b\"ts\":\"b\",\"threadId\":\"t1\",\"direction\":\"client\",\"payload\":null\x7d\n",
      (rustTrim l).data.isEmpty = false → (parseTranscriptLine (rustTrim l)).isSome = true) ∧
    read_transcript "t1" (some
        "\n\x7b\"ts\":\"a\",\"threadId\":\"t1\",\"direction\":\"server\",\"payload\":1\x7d\n  \n\x7b\"ts\":\"b\",\"threadId\":\"t1\",\"direction\":\"client\",\"payload\":null\x7d\n") =
      .ok ((rustLines
        "\n\x7b\"ts\":\"a\",\"threadId\":\"t1\",\"direction\":\"server\",\"payload\":1\x7d\n  \n\x7b\"ts\":\"b\",\"threadId\":\"t1\",\"direction\":\"client\",\"payload\":null\x7d\n").filterMap
        (fun l => if (rustTrim l).data.isEmpty then none else parseTranscriptLine (rustTrim l))) :=
  ⟨by decide, by decide, C10_read_skips_blank_lines "t1" _ (by decide) (by decide)⟩

/-! Infrastructure for claim C6: the batch append agrees with the
sequential appends. -/

def glookup : List (String × List TranscriptBatchItem) → String →
    Option (List TranscriptBatchItem)
  | [], _ => none
  | (k, es) :: rest, t => if k = t then some es else glookup rest t

def optAppend : Option (List TranscriptBatchItem) → List TranscriptBatchItem →
    Option (List TranscriptBatchItem)
  | none, [] => none
  | none, l => some l
  | some xs, l => some (xs ++ l)

theorem optAppend_nil (o : Option (List TranscriptBatchItem)) : optAppend o [] = o := by
  cases o <;> simp [optAppend]

theorem optAppend_optAppend (o : Option (List TranscriptBatchItem))
    (l1 l2 : List TranscriptBatchItem) :
    optAppend (optAppend o l1) l2 = optAppend o (l1 ++ l2) := by
  cases o with
  | none =>
    cases l1 with
    | nil => simp [optAppend]
    | cons x xs => simp [optAppend]
  | some xs =>
    cases l1 <;> cases l2 <;> simp [optAppend]

theorem glookup_insertGrouped (acc : List (String × List TranscriptBatchItem))
    (e : TranscriptBatchItem) (t : String) :
    glookup (insertGrouped acc e) t =
      if e.thread_id = t then optAppend (glookup acc t) [e] else glookup acc t := by
  induction acc with
  | nil =>
    by_cases h : e.thread_id = t <;> simp [insertGrouped, glookup, h, optAppend]
  | cons p rest ih =>
    obtain ⟨k, es⟩ := p
    by_cases hk : k = e.thread_id
    · rw [show insertGrouped ((k, es) :: rest) e = (k, es ++ [e]) :: rest by
        simp [insertGrouped, hk]]
      by_cases ht : k = t
      · have he : e.thread_id = t := hk ▸ ht
        simp [glookup, ht, he, optAppend]
      · have he : ¬ e.thread_id = t := fun h => ht (hk.trans h)
        simp [glookup, ht, he]
    · rw [show insertGrouped ((k, es) :: rest) e = (k, es) :: insertGrouped rest e by
        simp [insertGrouped, hk]]
      by_cases ht : k = t
      · have he : ¬ e.thread_id = t := fun h => hk (ht.trans h.symm)
        simp [glookup, ht, he]
      · simp [glookup, ht, ih]

theorem glookup_foldl_insert (events : List TranscriptBatchItem) :
    ∀ (acc : List (String × List TranscriptBatchItem)) (t : String),
      glookup (events.foldl insertGrouped acc) t =
        optAppend (glookup acc t) (events.filter (fun e => e.thread_id == t)) := by
  induction events with
  | nil => intro acc t; simp [optAppend_nil]
  | cons e rest ih =>
    intro acc t
    simp only [List.foldl_cons, List.filter_cons]
    rw [ih]
    rw [glookup_insertGrouped]
    by_cases h : e.thread_id = t
    · simp only [h, reduceIte, beq_self_eq_true]
      rw [optAppend_optAppend]
      rfl
    · have hb : (e.thread_id == t) = false := beq_eq_false_iff_ne.mpr h
      simp [h, hb]

theorem mem_keys_insertGrouped (acc : List (String × List TranscriptBatchItem))
    (e : TranscriptBatchItem) (x : String)
    (hx : x ∈ (insertGrouped acc e).map Prod.fst) :
    x ∈ acc.map Prod.fst ∨ x = e.thread_id := by
  induction acc with
  | nil =>
    simp [insertGrouped] at hx
    exact Or.inr hx
  | cons p rest ih =>
    obtain ⟨k, es⟩ := p
    by_cases hk : k = e.thread_id
    · subst hk
      simp only [insertGrouped, reduceIte, List.map_cons, List.mem_cons] at hx
      rcases hx with h1 | h2
      · exact Or.inl (by simp [h1])
      · exact Or.inl (by simp [h2])
    · simp only [insertGrouped, hk, Bool.false_eq_true, if_false, List.map_cons,
        List.mem_cons] at hx
      rcases hx with h1 | h2
      · exact Or.inl (by simp [h1])
      · rcases ih h2 with h3 | h4
        · exact Or.inl (List.mem_cons_of_mem _ h3)
        · exact Or.inr h4

theorem nodup_keys_insertGrouped (acc : List (String × List TranscriptBatchItem))
    (e : TranscriptBatchItem) (h : (acc.map Prod.fst).Nodup) :
    ((insertGrouped acc e).map Prod.fst).Nodup := by
  induction acc with
  | nil => simp [insertGrouped]
  | cons p rest ih =>
    obtain ⟨k, es⟩ := p
    simp only [List.map_cons, List.nodup_cons] at h
    by_cases hk : k = e.thread_id
    · subst hk
      simp only [insertGrouped, reduceIte, List.map_cons, List.nodup_cons]
      exact h
    · simp only [insertGrouped, hk, Bool.false_eq_true, if_false, List.map_cons,
        List.nodup_cons]
      refine ⟨fun hmem => ?_, ih h.2⟩
      rcases mem_keys_insertGrouped rest e k hmem with h1 | h2
      · exact h.1 h1
      · exact hk h2

theorem nodup_keys_foldl_insert (events : List TranscriptBatchItem) :
    ∀ acc, (acc.map Prod.fst).Nodup →
      ((events.foldl insertGrouped acc).map Prod.fst).Nodup := by
  induction events with
  | nil => intro acc h; exact h
  | cons e rest ih =>
    intro acc h
    exact ih (insertGrouped acc e) (nodup_keys_insertGrouped acc e h)

theorem glookup_eq_none_of_not_mem (g : List (String × List TranscriptBatchItem))
    (t : String) (h : t ∉ g.map Prod.fst) : glookup g t = none := by
  induction g with
  | nil => rfl
  | cons p rest ih =>
    obtain ⟨k, es⟩ := p
    simp only [List.map_cons, List.mem_cons] at h
    push_neg at h
    simp only [glookup]
    rw [if_neg (fun hk => h.1 hk.symm)]
    exact ih h.2

/-- Content appended for one group of a thread. -/
def groupContent : Option (List TranscriptBatchItem) → String
  | none => ""
  | some evts => String.join (evts.map batchLine)

theorem foldl_writeGroup_content (groups : List (String × List TranscriptBatchItem)) :
    ∀ (fs : String → String) (t : String), (groups.map Prod.fst).Nodup →
      (groups.foldl writeGroup fs) t = fs t ++ groupContent (glookup groups t) := by
  induction groups with
  | nil => intro fs t h; simp [glookup, groupContent, String.append_empty]
  | cons g gs ih =>
    obtain ⟨k, es⟩ := g
    intro fs t hnd
    simp only [List.map_cons, List.nodup_cons] at hnd
    simp only [List.foldl_cons]
    rw [ih (writeGroup fs (k, es)) t hnd.2]
    by_cases ht : k = t
    · subst ht
      have hnone : glookup gs k = none := glookup_eq_none_of_not_mem gs k hnd.1
      simp [writeGroup, glookup, hnone, groupContent, String.append_empty]
    · have hne : ¬ t = k := fun h => ht h.symm
      simp [writeGroup, glookup, ht, hne]

theorem buildGroups_ok (events : List TranscriptBatchItem)
    (h : ∀ e ∈ events, checkBatchItem e = .ok ()) :
    ∀ acc, buildGroups events acc = .ok (events.foldl insertGrouped acc) := by
  induction events with
  | nil => intro acc; rfl
  | cons e rest ih =>
    intro acc
    simp only [buildGroups, h e (List.mem_cons_self _ _), List.foldl_cons]
    exact ih (fun x hx => h x (List.mem_cons_of_mem _ hx)) (insertGrouped acc e)

theorem append_event_of_check (fs : String → String) (e : TranscriptBatchItem)
    (h : checkBatchItem e = .ok ()) :
    append_transcript_event fs e.ts e.thread_id e.direction e.payload =
      .ok (fun t => if t = e.thread_id then fs t ++ batchLine e else fs t) := by
  unfold checkBatchItem at h
  unfold append_transcript_event
  cases hv : validate_safe_id e.thread_id "thread_id" with
  | error err =>
    rw [hv] at h
    exact Except.noConfusion h
  | ok u =>
    rw [hv] at h
    by_cases hd : rustToLowercase (rustTrim e.direction) ≠ "server" ∧
        rustToLowercase (rustTrim e.direction) ≠ "client"
    · rw [if_pos hd] at h
      exact Except.noConfusion h
    · rw [if_neg hd]
      rfl

theorem appendSeq_content (events : List TranscriptBatchItem) :
    ∀ fs : String → String, (∀ e ∈ events, checkBatchItem e = .ok ()) →
      appendSeq fs events = .ok (fun t =>
        fs t ++ String.join ((events.filter (fun e => e.thread_id == t)).map batchLine)) := by
  induction events with
  | nil =>
    intro fs h
    simp only [appendSeq, List.filter_nil, List.map_nil]
    congr 1
    funext t
    simp [String.join, String.append_empty]
  | cons e rest ih =>
    intro fs h
    simp only [appendSeq, append_event_of_check fs e (h e (List.mem_cons_self _ _))]
    rw [ih _ (fun x hx => h x (List.mem_cons_of_mem _ hx))]
    congr 1
    funext t
    simp only [List.filter_cons]
    by_cases ht : e.thread_id = t
    · have ht2 : t = e.thread_id := ht.symm
      simp only [ht2, reduceIte, beq_self_eq_true, if_true, List.map_cons, string_join_cons]
      rw [String.append_assoc]
    · have hb : (e.thread_id == t) = false := beq_eq_false_iff_ne.mpr ht
      have ht2 : ¬ t = e.thread_id := fun hh => ht hh.symm
      simp [hb, ht2]

/-- C6: for every list of valid batch entries — entries whose thread
identifier passes validation and whose direction normalizes to
`server` or `client` — spanning any number of distinct threads,
`append_transcript_batch` produces exactly the filesystem that
sequential `append_transcript_event` calls for the entries, in their
original order, would have produced: for each thread, the file
content equals the sequential result. -/
theorem C6_batch_equivalent_to_sequential (fs : String → String)
    (events : List TranscriptBatchItem)
    (h : ∀ e ∈ events, checkBatchItem e = .ok ()) :
    append_transcript_batch fs events = appendSeq fs events := by
  rw [appendSeq_content events fs h]
  unfold append_transcript_batch
  by_cases hemp : events.isEmpty = true
  · have hnil : events = [] := List.isEmpty_iff.mp hemp
    subst hnil
    simp only [List.isEmpty_nil, reduceIte, List.filter_nil, List.map_nil]
    congr 1
    funext t
    simp [String.join, String.append_empty]
  · rw [if_neg hemp]
    rw [buildGroups_ok events h []]
    show Except.ok ((events.foldl insertGrouped []).foldl writeGroup fs) = _
    congr 1
    funext t
    rw [foldl_writeGroup_content _ fs t (nodup_keys_foldl_insert events [] (by simp))]
    rw [glookup_foldl_insert events [] t]
    show fs t ++ groupContent (optAppend none (events.filter fun e => e.thread_id == t)) = _
    cases hf : events.filter (fun e => e.thread_id == t) with
    | nil => simp [optAppend, groupContent, String.join]
    | cons x xs => simp [optAppend, groupContent]

theorem C6_batch_equivalent_to_sequential_witness :
    (∀ e ∈ ([⟨"1", "tA", "server", .null⟩, ⟨"2", "tB", " Client", .num 3⟩,
        ⟨"3", "tA", "client", .str "x"⟩] : List TranscriptBatchItem),
      checkBatchItem e = .ok ()) ∧
    append_transcript_batch (fun _ => "")
        [⟨"1", "tA", "server", .null⟩, ⟨"2", "tB", " Client", .num 3⟩,
         ⟨"3", "tA", "client", .str "x"⟩] =
      appendSeq (fun _ => "")
        [⟨"1", "tA", "server", .null⟩, ⟨"2", "tB", " Client", .num 3⟩,
         ⟨"3", "tA", "client", .str "x"⟩] :=
  ⟨by decide, C6_batch_equivalent_to_sequential _ _ (by decide)⟩
